import Mathlib

/-!
Verification of the `ros2_go2_video` frame-republish pipeline (`src/main.rs`).

The program opens a decode session over a fixed SDP locator, builds one
`sensor_msgs/Image` message, then loops: pull a frame, query the clock,
overwrite the message's stamp and payload, and publish best-effort.  We embed
the message shape, the decoder-options map, the parameter loading and the
per-frame loop as executable Lean definitions and prove the specification's
claims about them.
-/

namespace Go2Video

/-- A decoded frame's raw bytes (`frame.into_raw_vec()` in the source). -/
abbrev Frame := List Nat

/-- Host byte order, the two values `cfg!(target_endian = ...)` distinguishes. -/
inductive Endianness where
  | little
  | big
deriving DecidableEq, Repr

/-- The `sensor_msgs::msg::Image` fields the program touches.  The ROS header
(frame id and stamp) is flattened into the structure; the stamp is modelled as
a single natural number of clock ticks. -/
structure ImageMsg where
  frame_id : String
  stamp : Nat
  width : Nat
  height : Nat
  step : Nat
  encoding : String
  is_bigendian : Nat
  data : Frame
deriving DecidableEq, Repr

/-- `Image::default()`: every field zero or empty. -/
def imageDefault : ImageMsg :=
  { frame_id := ""
    stamp := 0
    width := 0
    height := 0
    step := 0
    encoding := ""
    is_bigendian := 0
    data := [] }

/-- The message built in `main` before the loop (lines 116-128): field
assignments on `Image::default()`, in source order.  `width` and `height` come
from `decoder.size_out()` and are `u32`, so the `step` multiplication is u32
arithmetic, reduced mod 2^32. -/
def mainImageMsg (e : Endianness) (width height : Nat) : ImageMsg :=
  let m0 := imageDefault
  let m1 := { m0 with frame_id := "front_camera" }
  let m2 := { m1 with width := width }
  let m3 := { m2 with height := height }
  let m4 := { m3 with step := m3.width * 3 % 2 ^ 32 }
  let m5 := { m4 with encoding := "rgb8" }
  match e with
  | .little => { m5 with is_bigendian := 0 }
  | .big => { m5 with is_bigendian := 1 }

/-- `NodeParams` (lines 14-21): `u16` ports modelled as naturals. -/
structure NodeParams where
  robot_ip : String
  robot_token : String
  video_port : Nat
  audio_port : Nat
  debug_webrtc : Bool
deriving DecidableEq, Repr

/-- Parameter initialisation (lines 55-63): environment lookups with
defaults. -/
def initNodeParams (env : String → Option String) : NodeParams :=
  { robot_ip := (env "ROBOT_IP").getD ""
    robot_token := (env "ROBOT_TOKEN").getD ""
    video_port := 4002
    audio_port := 4000
    debug_webrtc := true }

/-- The argument tuple copied out of the locked parameter snapshot and handed
to the webrtc bootstrap task (lines 71-80). -/
def bootstrapArgs (p : NodeParams) : Nat × Nat × String × String × Bool :=
  (p.video_port, p.audio_port, p.robot_ip, p.robot_token, p.debug_webrtc)

/-- The constant stream locator URL (lines 97-101). -/
def streamLocatorUrl : String :=
  "https://raw.githubusercontent.com/tfoldi/go2webrtc-rs/master/connection.sdp"

/-- The locator handed to `Decoder::new_with_options`, as a function of
everything `main` has computed by that point: the parameter snapshot and any
outcome of the spawned bootstrap task.  The source ignores both and uses the
constant URL. -/
def mainStreamLocator (p : NodeParams) (bootstrapOutcome : Option Unit)
    (env : String → Option String) : String :=
  streamLocatorUrl

/-- A string-keyed option map, as built by successive `HashMap::insert`
calls. -/
def emptyOptions : String → Option String := fun _ => none

/-- One `HashMap::insert`. -/
def insertOption (m : String → Option String) (k v : String) :
    String → Option String :=
  fun q => if q = k then some v else m q

/-- `get_decoder_options` (lines 23-35): the five inserts, in source order. -/
def get_decoder_options : String → Option String :=
  insertOption
    (insertOption
      (insertOption
        (insertOption
          (insertOption emptyOptions
            "protocol_whitelist" "file,rtp,udp,https,tls,tcp")
          "flags" "low_delay")
        "analyzeduration" "4M")
      "probesize" "4M")
    "vf" "setpts=0"

/-- The five decoder-option entries as an explicit association list, for the
exactness statement. -/
def decoderOptionEntries : List (String × String) :=
  [("protocol_whitelist", "file,rtp,udp,https,tls,tcp"),
   ("flags", "low_delay"),
   ("analyzeduration", "4M"),
   ("probesize", "4M"),
   ("vf", "setpts=0")]

/-- QoS reliability policies relevant here.  Modelled from the r2r middleware
library (an external dependency): the policy variants of
`r2r::QosProfile`. -/
inductive Reliability where
  | systemDefault
  | reliable
  | bestEffort
deriving DecidableEq, Repr

/-- QoS history policies.  Modelled from the r2r middleware library. -/
inductive History where
  | systemDefault
  | keepLast
  | keepAll
deriving DecidableEq, Repr

/-- QoS durability policies.  Modelled from the r2r middleware library. -/
inductive Durability where
  | systemDefault
  | transientLocal
  | volatile
deriving DecidableEq, Repr

/-- The QoS fields that decide delivery semantics.  Modelled from the r2r
middleware library's `QosProfile`. -/
structure QosProfile where
  history : History
  depth : Nat
  reliability : Reliability
  durability : Durability
deriving DecidableEq, Repr

/-- `QosProfile::default()` as defined by the r2r library: the ROS 2 default
profile - keep-last history with depth 10, RELIABLE reliability, VOLATILE
durability. -/
def QosProfile.default : QosProfile :=
  { history := .keepLast
    depth := 10
    reliability := .reliable
    durability := .volatile }

/-- The QoS profile passed when the publisher is created (line 113). -/
def publisherQos : QosProfile := QosProfile.default

/-- The topic the publisher is created on (line 113). -/
def publisherTopic : String := "/go2_camera/color/image"

/-- The per-iteration mutation of the message (lines 136-137): overwrite the
stamp with the clock value and replace the payload wholesale with the frame's
raw bytes. -/
def updateMsg (msg : ImageMsg) (t : Nat) (f : Frame) : ImageMsg :=
  { msg with stamp := t, data := f }

/-- What one `decode_iter` pull yields: `some frame` for `Ok((_, frame))`
(the timestamp metadata is discarded by the source's pattern), `none` for an
`Err` (end of stream or decode error). -/
abbrev Pull := Option Frame

/-- Observable outcome of the decode loop: the messages handed to the
publisher in order, the number of pulls performed, and whether a clock query
failed (which makes `main` return `Err` via `?`). -/
structure LoopRun where
  handed : List ImageMsg
  pulls : Nat
  clockFailed : Bool
deriving DecidableEq, Repr

/-- The frame-processing loop (lines 132-143).  `clock i` is the result of
the i-th `clock.get_now()` call (`none` models a clock error, propagated by
`?`); `pub` is the publisher, whose result is bound to `_` and discarded;
`i` counts clock calls made so far.  Each consumed list element is one pull;
an `Err` pull breaks the loop. -/
def runLoop (clock : Nat → Option Nat) (pub : ImageMsg → Bool) :
    List Pull → ImageMsg → Nat → LoopRun
  | [], _, _ => ⟨[], 0, false⟩
  | none :: _, _, _ => ⟨[], 1, false⟩
  | some f :: rest, msg, i =>
    match clock i with
    | none => ⟨[], 1, true⟩
    | some t =>
      let msg2 := updateMsg msg t f
      let _ := pub msg2
      let r := runLoop clock pub rest msg2 (i + 1)
      ⟨msg2 :: r.handed, r.pulls + 1, r.clockFailed⟩

/-- The whole post-setup flow of `main`: build the message from the
negotiated geometry, then run the loop from clock call 0. -/
def runMain (e : Endianness) (clock : Nat → Option Nat) (pub : ImageMsg → Bool)
    (width height : Nat) (pulls : List Pull) : LoopRun :=
  runLoop clock pub pulls (mainImageMsg e width height) 0

/-- Process exit code after the loop: `main` returns `Ok(())` (code 0) unless
a `?` propagated a clock error (nonzero, 1 for `anyhow`). -/
def mainExitCode (r : LoopRun) : Nat :=
  if r.clockFailed then 1 else 0

/-- The header-shape fields of a message: frame id, width, height, step,
encoding, endianness flag. -/
def header (m : ImageMsg) :
    String × Nat × Nat × Nat × String × Nat :=
  (m.frame_id, m.width, m.height, m.step, m.encoding, m.is_bigendian)

lemma updateMsg_header (msg : ImageMsg) (t : Nat) (f : Frame) :
    header (updateMsg msg t f) = header msg := rfl

lemma runLoop_handed_header (clock : Nat → Option Nat) (pub : ImageMsg → Bool) :
    ∀ (pulls : List Pull) (msg : ImageMsg) (i : Nat),
      ∀ m ∈ (runLoop clock pub pulls msg i).handed, header m = header msg
  | [], msg, i => by simp [runLoop]
  | none :: rest, msg, i => by simp [runLoop]
  | some f :: rest, msg, i => by
      intro m hm
      simp only [runLoop] at hm
      cases hcl : clock i with
      | none => rw [hcl] at hm; simp at hm
      | some t =>
          rw [hcl] at hm
          simp only [List.mem_cons] at hm
          rcases hm with rfl | hm
          · rfl
          · have h2 := runLoop_handed_header clock pub rest
              (updateMsg msg t f) (i + 1) m hm
            rw [h2, updateMsg_header]

lemma mainImageMsg_header (e : Endianness) (width height : Nat) :
    header (mainImageMsg e width height) =
      ("front_camera", width, height, width * 3 % 2 ^ 32, "rgb8",
        match e with | .little => 0 | .big => 1) := by
  cases e <;> rfl

lemma runLoop_pub_irrel (clock : Nat → Option Nat)
    (pub1 pub2 : ImageMsg → Bool) :
    ∀ (pulls : List Pull) (msg : ImageMsg) (i : Nat),
      runLoop clock pub1 pulls msg i = runLoop clock pub2 pulls msg i
  | [], msg, i => rfl
  | none :: rest, msg, i => rfl
  | some f :: rest, msg, i => by
      simp only [runLoop]
      cases clock i with
      | none => rfl
      | some t =>
          simp only []
          rw [runLoop_pub_irrel clock pub1 pub2 rest (updateMsg msg t f) (i + 1)]

lemma runLoop_clean_spec (clock : Nat → Option Nat) (v : Nat → Nat)
    (pub : ImageMsg → Bool) :
    ∀ (fs : List Frame) (rest : List Pull) (msg : ImageMsg) (i : Nat),
      (∀ j < fs.length, clock (i + j) = some (v (i + j))) →
      (runLoop clock pub (fs.map some ++ none :: rest) msg i).pulls
          = fs.length + 1 ∧
      (runLoop clock pub (fs.map some ++ none :: rest) msg i).clockFailed
          = false ∧
      (runLoop clock pub (fs.map some ++ none :: rest) msg i).handed.map
          (fun m => m.data) = fs ∧
      (runLoop clock pub (fs.map some ++ none :: rest) msg i).handed.map
          (fun m => m.stamp) = (List.range' i fs.length).map v
  | [], rest, msg, i => by intro h; simp [runLoop, List.range']
  | f :: fs, rest, msg, i => by
      intro h
      have h0 : clock i = some (v i) := by
        have := h 0 (by simp)
        simpa using this
      have hrec := runLoop_clean_spec clock v pub fs rest
        (updateMsg msg (v i) f) (i + 1)
        (by
          intro j hj
          have := h (j + 1) (by simpa using Nat.succ_lt_succ hj)
          have harith : i + (j + 1) = i + 1 + j := by omega
          rwa [harith] at this)
      simp only [List.map_cons, List.cons_append, runLoop, h0, updateMsg] at *
      refine ⟨?_, ?_, ?_, ?_⟩
      · simp [hrec.1]
      · simp [hrec.2.1]
      · simp [hrec.2.2.1]
      · simp [List.range', hrec.2.2.2]

lemma runLoop_clock_fail (clock : Nat → Option Nat) (pub : ImageMsg → Bool) :
    ∀ (k : Nat) (fs : List Frame) (rest : List Pull) (msg : ImageMsg) (i : Nat),
      k < fs.length →
      (∀ j < k, (clock (i + j)).isSome) →
      clock (i + k) = none →
      (runLoop clock pub (fs.map some ++ rest) msg i).pulls = k + 1 ∧
      (runLoop clock pub (fs.map some ++ rest) msg i).clockFailed = true ∧
      (runLoop clock pub (fs.map some ++ rest) msg i).handed.map
          (fun m => m.data) = fs.take k
  | 0, [], rest, msg, i => by intro hk; simp at hk
  | 0, f :: fs, rest, msg, i => by
      intro hk hok hfail
      simp only [Nat.add_zero] at hfail
      simp [runLoop, hfail]
  | k + 1, [], rest, msg, i => by intro hk; simp at hk
  | k + 1, f :: fs, rest, msg, i => by
      intro hk hok hfail
      obtain ⟨t, ht⟩ := Option.isSome_iff_exists.mp
        (by simpa using hok 0 (Nat.succ_pos k))
      have hrec := runLoop_clock_fail clock pub k fs rest
        (updateMsg msg t f) (i + 1)
        (by simpa using Nat.lt_of_succ_lt_succ hk)
        (by
          intro j hj
          have := hok (j + 1) (Nat.succ_lt_succ hj)
          have harith : i + (j + 1) = i + 1 + j := by omega
          rwa [harith] at this)
        (by
          have harith : i + (k + 1) = i + 1 + k := by omega
          rwa [harith] at hfail)
      simp only [List.map_cons, List.cons_append, runLoop, ht, updateMsg] at *
      refine ⟨?_, ?_, ?_⟩
      · simp [hrec.1]
      · simp [hrec.2.1]
      · simp [hrec.2.2]

lemma chain_le_map_range_aux (v : Nat → Nat)
    (hm : ∀ a b : Nat, a ≤ b → v a ≤ v b) :
    ∀ (n i : Nat), List.Chain' (fun a b => a ≤ b) ((List.range' i n).map v) := by
  intro n
  induction n with
  | zero => intro i; simp [List.range']
  | succ m ih =>
      intro i
      cases m with
      | zero => simp [List.range']
      | succ m2 =>
          have hexp : (List.range' i (m2 + 1 + 1)).map v
              = v i :: (List.range' (i + 1) (m2 + 1)).map v := by
            simp [List.range']
          rw [hexp]
          have htail := ih (i + 1)
          refine List.Chain'.cons' htail ?_
          intro b hb
          have hhead : ((List.range' (i + 1) (m2 + 1)).map v).head? = some (v (i + 1)) := by
            simp [List.range']
          rw [hhead] at hb
          simp only [Option.mem_def, Option.some.injEq] at hb
          subst hb
          exact hm i (i + 1) (Nat.le_succ i)

/-- C1: every message handed to the publisher during a run carries
`step = width * 3`, where `(width, height)` is the negotiated output geometry
used to build the message (assuming the u32 multiplication does not wrap,
which holds for every valid geometry). -/
theorem claim_C1 (e : Endianness) (clock : Nat → Option Nat)
    (pub : ImageMsg → Bool) (width height : Nat) (pulls : List Pull)
    (hw : width * 3 < 2 ^ 32) :
    ∀ m ∈ (runMain e clock pub width height pulls).handed,
      m.step = width * 3 := by
  intro m hm
  simp only [runMain] at hm
  have h1 := runLoop_handed_header clock pub pulls
    (mainImageMsg e width height) 0 m hm
  rw [mainImageMsg_header] at h1
  have h2 : m.step = width * 3 % 2 ^ 32 := by
    have h3 := congrArg (fun x => x.2.2.2.1) h1
    simpa [header] using h3
  rw [h2, Nat.mod_eq_of_lt hw]

theorem claim_C1_witness :
    64 * 3 < 2 ^ 32 ∧
      ∀ m ∈ (runMain .little (fun _ => some 0) (fun _ => true) 64 48
          [some [0], none]).handed, m.step = 64 * 3 :=
  ⟨by norm_num,
    claim_C1 .little (fun _ => some 0) (fun _ => true) 64 48
      [some [0], none] (by norm_num)⟩

/-- C2: if the first `fs.length` pulls yield frames and the next pull yields
an end-of-stream/decode-error signal (pull number `N = fs.length + 1`), then
exactly `N - 1` messages were handed to the publisher, exactly `N` pulls
occurred (none after the signal, whatever the iterator could still yield),
and the process exits with code 0. -/
theorem claim_C2 (e : Endianness) (clock : Nat → Option Nat)
    (pub : ImageMsg → Bool) (width height : Nat) (fs : List Frame)
    (rest : List Pull)
    (hc : ∀ j < fs.length, (clock j).isSome) :
    (runMain e clock pub width height (fs.map some ++ none :: rest)).handed.length
        = fs.length ∧
    (runMain e clock pub width height (fs.map some ++ none :: rest)).pulls
        = fs.length + 1 ∧
    mainExitCode
        (runMain e clock pub width height (fs.map some ++ none :: rest)) = 0 := by
  have hc2 : ∀ j < fs.length,
      clock (0 + j) = some ((fun n => (clock n).getD 0) (0 + j)) := by
    intro j hj
    have h := hc j hj
    cases hcl : clock j with
    | none => rw [hcl] at h; simp at h
    | some t => simp [hcl]
  have h := runLoop_clean_spec clock (fun n => (clock n).getD 0) pub fs rest
    (mainImageMsg e width height) 0 hc2
  refine ⟨?_, ?_, ?_⟩
  · have h4 := congrArg List.length h.2.2.1
    simpa [runMain] using h4
  · simpa [runMain] using h.1
  · simp [mainExitCode, runMain, h.2.1]

theorem claim_C2_witness :
    (∀ j < ([[1], [2]] : List Frame).length,
        ((fun n => some n) j : Option Nat).isSome) ∧
    ((runMain .little (fun n => some n) (fun _ => true) 64 48
        (([[1], [2]] : List Frame).map some ++ none :: [])).handed.length
          = ([[1], [2]] : List Frame).length ∧
      (runMain .little (fun n => some n) (fun _ => true) 64 48
        (([[1], [2]] : List Frame).map some ++ none :: [])).pulls
          = ([[1], [2]] : List Frame).length + 1 ∧
      mainExitCode (runMain .little (fun n => some n) (fun _ => true) 64 48
        (([[1], [2]] : List Frame).map some ++ none :: [])) = 0) :=
  ⟨by decide,
    claim_C2 .little (fun n => some n) (fun _ => true) 64 48 [[1], [2]] []
      (by decide)⟩

/-- C3: the run of the loop is literally independent of the publish outcome -
the publisher's return value is discarded, so any sink produces the same run
(same messages handed, same pull count) as the always-succeeding sink. -/
theorem claim_C3 (clock : Nat → Option Nat) (pub : ImageMsg → Bool)
    (pulls : List Pull) (msg : ImageMsg) (i : Nat) :
    runLoop clock pub pulls msg i = runLoop clock (fun _ => true) pulls msg i ∧
    (runLoop clock pub pulls msg i).pulls
      = (runLoop clock (fun _ => true) pulls msg i).pulls := by
  refine ⟨runLoop_pub_irrel clock pub (fun _ => true) pulls msg i, ?_⟩
  rw [runLoop_pub_irrel clock pub (fun _ => true) pulls msg i]

/-- C4: if the clock query fails on iteration `k` (0-based; every earlier
query succeeded and every pull so far yielded a frame), then exactly `k`
messages were handed to the publisher - none carrying iteration `k`'s frame -
the loop stops immediately (`k + 1` pulls, whatever the iterator could still
yield) and the process exits with a nonzero code. -/
theorem claim_C4 (e : Endianness) (clock : Nat → Option Nat)
    (pub : ImageMsg → Bool) (width height : Nat) (fs : List Frame)
    (rest : List Pull) (k : Nat)
    (hk : k < fs.length)
    (hok : ∀ j < k, (clock j).isSome)
    (hfail : clock k = none) :
    (runMain e clock pub width height (fs.map some ++ rest)).handed.length = k ∧
    (runMain e clock pub width height (fs.map some ++ rest)).handed.map
        (fun m => m.data) = fs.take k ∧
    (runMain e clock pub width height (fs.map some ++ rest)).pulls = k + 1 ∧
    (runMain e clock pub width height (fs.map some ++ rest)).clockFailed = true ∧
    mainExitCode (runMain e clock pub width height (fs.map some ++ rest)) = 1 := by
  have h := runLoop_clock_fail clock pub k fs rest
    (mainImageMsg e width height) 0 hk
    (by intro j hj; simpa using hok j hj)
    (by simpa using hfail)
  refine ⟨?_, ?_, ?_, ?_, ?_⟩
  · have h4 := congrArg List.length h.2.2
    simp only [List.length_map, List.length_take] at h4
    simp only [runMain]
    omega
  · simpa [runMain] using h.2.2
  · simpa [runMain] using h.1
  · simpa [runMain] using h.2.1
  · simp [mainExitCode, runMain, h.2.1]

theorem claim_C4_witness :
    1 < ([[5], [6]] : List Frame).length ∧
    (∀ j < 1, ((fun n => if n < 1 then some n else none) j : Option Nat).isSome) ∧
    (fun n => if n < 1 then some n else none) 1 = (none : Option Nat) ∧
    ((runMain .little (fun n => if n < 1 then some n else none) (fun _ => true)
        64 48 (([[5], [6]] : List Frame).map some ++ [])).handed.length = 1 ∧
      (runMain .little (fun n => if n < 1 then some n else none) (fun _ => true)
        64 48 (([[5], [6]] : List Frame).map some ++ [])).handed.map
          (fun m => m.data) = ([[5], [6]] : List Frame).take 1 ∧
      (runMain .little (fun n => if n < 1 then some n else none) (fun _ => true)
        64 48 (([[5], [6]] : List Frame).map some ++ [])).pulls = 1 + 1 ∧
      (runMain .little (fun n => if n < 1 then some n else none) (fun _ => true)
        64 48 (([[5], [6]] : List Frame).map some ++ [])).clockFailed = true ∧
      mainExitCode (runMain .little (fun n => if n < 1 then some n else none)
        (fun _ => true) 64 48 (([[5], [6]] : List Frame).map some ++ [])) = 1) :=
  ⟨by decide, by decide, by decide,
    claim_C4 .little (fun n => if n < 1 then some n else none) (fun _ => true)
      64 48 [[5], [6]] [] 1 (by decide) (by decide) (by decide)⟩

/-- C5: with every pull yielding a frame until the end signal and a clock
whose successive values are non-decreasing, the i-th message handed to the
publisher carries exactly the i-th decoded frame's bytes (no reordering, no
dropping) and the handed messages' timestamps are non-decreasing in publish
order. -/
theorem claim_C5 (e : Endianness) (clock : Nat → Option Nat) (v : Nat → Nat)
    (pub : ImageMsg → Bool) (width height : Nat) (fs : List Frame)
    (rest : List Pull)
    (hc : ∀ j < fs.length, clock j = some (v j))
    (hmono : ∀ a b : Nat, a ≤ b → v a ≤ v b) :
    (runMain e clock pub width height (fs.map some ++ none :: rest)).handed.map
        (fun m => m.data) = fs ∧
    List.Chain' (fun a b => a ≤ b)
      ((runMain e clock pub width height (fs.map some ++ none :: rest)).handed.map
        (fun m => m.stamp)) := by
  have h := runLoop_clean_spec clock v pub fs rest
    (mainImageMsg e width height) 0
    (by intro j hj; simpa using hc j hj)
  refine ⟨by simpa [runMain] using h.2.2.1, ?_⟩
  simp only [runMain]
  rw [h.2.2.2]
  exact chain_le_map_range_aux v hmono fs.length 0

theorem claim_C5_witness :
    (∀ j < ([[1], [2], [3]] : List Frame).length,
        ((fun n => some (n * 2)) j : Option Nat) = some ((fun n => n * 2) j)) ∧
    (∀ a b : Nat, a ≤ b → (fun n => n * 2) a ≤ (fun n => n * 2) b) ∧
    ((runMain .little (fun n => some (n * 2)) (fun _ => true) 64 48
        (([[1], [2], [3]] : List Frame).map some ++ none :: [])).handed.map
          (fun m => m.data) = ([[1], [2], [3]] : List Frame) ∧
      List.Chain' (fun a b => a ≤ b)
        ((runMain .little (fun n => some (n * 2)) (fun _ => true) 64 48
          (([[1], [2], [3]] : List Frame).map some ++ none :: [])).handed.map
            (fun m => m.stamp))) :=
  ⟨by decide, fun a b h => Nat.mul_le_mul_right 2 h,
    claim_C5 .little (fun n => some (n * 2)) (fun n => n * 2) (fun _ => true)
      64 48 [[1], [2], [3]] [] (by decide)
      (fun a b h => Nat.mul_le_mul_right 2 h)⟩

/-- C6: the per-iteration mutation changes only the stamp and the payload -
every header-shape field (frame id, width, height, step, encoding, endianness
flag) is preserved, the payload is replaced wholesale by the new frame's
bytes - and consequently every message handed to the publisher during a run
carries exactly the header shape computed once before the loop. -/
theorem claim_C6 :
    (∀ (msg : ImageMsg) (t : Nat) (f : Frame),
        header (updateMsg msg t f) = header msg ∧
        (updateMsg msg t f).stamp = t ∧
        (updateMsg msg t f).data = f) ∧
    (∀ (e : Endianness) (clock : Nat → Option Nat) (pub : ImageMsg → Bool)
        (width height : Nat) (pulls : List Pull),
        ∀ m ∈ (runMain e clock pub width height pulls).handed,
          header m = header (mainImageMsg e width height)) := by
  constructor
  · intro msg t f
    exact ⟨rfl, rfl, rfl⟩
  · intro e clock pub width height pulls m hm
    exact runLoop_handed_header clock pub pulls (mainImageMsg e width height) 0
      m (by simpa [runMain] using hm)

theorem claim_C6_witness :
    header (updateMsg (mainImageMsg .little 2 2) 5 [7])
      = header (mainImageMsg .little 2 2) :=
  claim_C6.2 .little (fun _ => some 5) (fun _ => true) 2 2 [some [7], none]
    (updateMsg (mainImageMsg .little 2 2) 5 [7])
    (by simp [runMain, runLoop])

/-- C7: the endianness flag is 0 when the host byte order is little-endian
and 1 when it is big-endian, fixed when the message is built, and every
message handed to the publisher carries that same flag regardless of frames,
clock values or publish outcomes. -/
theorem claim_C7 :
    (∀ (width height : Nat),
        (mainImageMsg .little width height).is_bigendian = 0 ∧
        (mainImageMsg .big width height).is_bigendian = 1) ∧
    (∀ (e : Endianness) (clock : Nat → Option Nat) (pub : ImageMsg → Bool)
        (width height : Nat) (pulls : List Pull),
        ∀ m ∈ (runMain e clock pub width height pulls).handed,
          m.is_bigendian = (mainImageMsg e width height).is_bigendian) := by
  constructor
  · intro width height
    exact ⟨rfl, rfl⟩
  · intro e clock pub width height pulls m hm
    have h1 := runLoop_handed_header clock pub pulls
      (mainImageMsg e width height) 0 m (by simpa [runMain] using hm)
    have h2 := congrArg (fun x => x.2.2.2.2.2) h1
    simpa [header] using h2

theorem claim_C7_witness :
    (updateMsg (mainImageMsg .big 2 2) 5 [7]).is_bigendian
      = (mainImageMsg .big 2 2).is_bigendian :=
  claim_C7.2 .big (fun _ => some 5) (fun _ => true) 2 2 [some [7], none]
    (updateMsg (mainImageMsg .big 2 2) 5 [7])
    (by simp [runMain, runLoop])

/-- C8 counterexample: the QoS profile passed when creating the publisher is
the middleware's default profile, whose reliability policy is RELIABLE - it
does not specify best-effort reliability. -/
theorem claim_C8_counterexample :
    publisherQos.reliability ≠ Reliability.bestEffort := by
  decide

/-- C8 (amended): the publisher is created with the middleware's default QoS
profile - keep-last history of depth 10, RELIABLE reliability, VOLATILE
durability - i.e. a guaranteed-delivery queue of depth 10, not best-effort. -/
theorem claim_C8 :
    publisherQos = QosProfile.default ∧
    publisherQos.reliability = Reliability.reliable ∧
    publisherQos.history = History.keepLast ∧
    publisherQos.depth = 10 ∧
    publisherQos.durability = Durability.volatile :=
  ⟨rfl, rfl, rfl, rfl, rfl⟩

/-- C9: the transport-options map handed to the decoder contains exactly five
entries - the protocol allowlist, the low-delay flag, the bounded analysis
and probe sizes, and the `setpts=0` presentation-timestamp reset filter - and,
being a constant of the program, it is the same for every session. -/
theorem claim_C9 :
    ∀ k v, get_decoder_options k = some v ↔ (k, v) ∈ decoderOptionEntries := by
  intro k v
  simp only [get_decoder_options, insertOption, emptyOptions,
    decoderOptionEntries, List.mem_cons, List.not_mem_nil, or_false,
    Prod.mk.injEq]
  split_ifs with h1 h2 h3 h4 h5 <;> simp_all <;> exact eq_comm

/-- C10: the locator handed to the decoder is the fixed SDP URL, for every
parameter snapshot, every bootstrap outcome and every environment - in
particular it does not depend on the connection parameters or the environment
variables the parameters were loaded from. -/
theorem claim_C10 :
    ∀ (p q : NodeParams) (b b2 : Option Unit)
      (env env2 : String → Option String),
      mainStreamLocator p b env =
        "https://raw.githubusercontent.com/tfoldi/go2webrtc-rs/master/connection.sdp" ∧
      mainStreamLocator p b env = mainStreamLocator q b2 env2 ∧
      mainStreamLocator (initNodeParams env) b env = streamLocatorUrl := by
  intro p q b b2 env env2
  exact ⟨rfl, rfl, rfl⟩

end Go2Video
